import Mathlib

/-!
Verification development for the PromptPit content-ingestion pipeline and
retrieval engine (backend/app/services).

The Python services are shallowly embedded as pure Lean functions over
explicit state:

* `ChromaState` models the persistent ChromaDB client state consumed by
  `ChromaService` (backend/app/services/chroma_service.py): a list of named
  collections, each holding `(id, document)` pairs.  Embeddings and
  similarity are computed by the external engine; they are abstracted by a
  caller-supplied distance oracle `dist : String → String → Int`, and the
  engine result ordering ("nearest first") is modelled by sorting on that
  oracle.  ChromaDB document ids produced by the pipeline have the shape
  `doc_{content.id}_{uuid4().hex[:8]}`; the fresh random uuid4 suffix is
  modelled as an injective nonce drawn from a monotone counter
  (`World.nextNonce`), which is the standard faithful abstraction of a
  fresh-uuid supply.
* `Db` models the relational rows the services query
  (`KnowledgeBase`, `KnowledgeBaseContent`, `Provider`, `Model`).
* Service methods become functions `World → ... → World × Except String α`;
  a Python exception is an `Except.error` carrying the exact wrapped message
  the code raises, and SQLAlchemy commit/rollback is reproduced by only
  publishing row mutations on the paths that commit them.
* `KnowledgeBaseService.process_content` additionally returns the ordered
  list of `processing_status` values it committed for the record (its
  status trace), so that state-machine claims about intermediate
  transitions are statable.
-/

/-- A Python value stored in a ChromaDB metadata dictionary.  `obj s` is any
non-primitive value (list, dict, datetime, ...) carrying its `str()`
rendering `s`; `pynone` is Python `None`. -/
inductive MetaValue where
  | str (s : String)
  | int (n : Int)
  | float (q : Rat)
  | bool (b : Bool)
  | pynone
  | obj (pyStr : String)
deriving DecidableEq, Repr

/-- Metadata-value coercion performed by `ChromaService.create_collection`
and `ChromaService.add_documents`: `isinstance(value, (str, int, float,
bool)) or value is None` keeps the value, anything else becomes
`str(value)`. -/
def coerceValue : MetaValue → MetaValue
  | .obj s => .str s
  | v => v

/-- One metadata dictionary, coerced key by key (`safe_metadata`). -/
def coerceMetadata (m : List (String × MetaValue)) : List (String × MetaValue) :=
  m.map (fun kv => (kv.1, coerceValue kv.2))

/-- A ChromaDB document id as minted by
`KnowledgeBaseService._add_to_chroma`: `doc_{content.id}_{uuid4().hex[:8]}`,
with the fresh uuid suffix modelled as an injective nonce. -/
structure ChromaDocId where
  contentId : Nat
  nonce : Nat
deriving DecidableEq, Repr

/-- A stored (text, metadata) vector entry. -/
structure ChromaDoc where
  text : String
  metadata : List (String × MetaValue)
deriving DecidableEq, Repr

/-- One ChromaDB collection: its metadata and its stored documents. -/
structure ChromaCollection where
  metadata : List (String × MetaValue)
  docs : List (ChromaDocId × ChromaDoc)
deriving DecidableEq, Repr

/-- The ChromaDB persistent-client state: named collections. -/
structure ChromaState where
  collections : List (String × ChromaCollection)
deriving DecidableEq, Repr

/-- First-match association-list lookup (the collection named `k`). -/
def lookupColl (k : String) : List (String × ChromaCollection) → Option ChromaCollection
  | [] => none
  | (k2, v) :: rest => if k2 = k then some v else lookupColl k rest

/-- First-match lookup of a document id inside a collection. -/
def lookupDoc (i : ChromaDocId) : List (ChromaDocId × ChromaDoc) → Option ChromaDoc
  | [] => none
  | (j, d) :: rest => if j = i then some d else lookupDoc i rest

/-- Replace the collection named `k` (used after mutating its documents). -/
def setColl (k : String) (c : ChromaCollection) :
    List (String × ChromaCollection) → List (String × ChromaCollection)
  | [] => []
  | (k2, v) :: rest =>
      if k2 = k then (k2, c) :: rest else (k2, v) :: setColl k c rest

/-- Whether `len(collection_name.strip()) == 0` (also covering the falsy
empty string): every character is whitespace. -/
def isBlankName (s : String) : Bool :=
  s.data.all (fun c => c == ' ' || c == '\t' || c == '\n' || c == '\r')

/-- Model of `ChromaService.get_collection`: validates the name, then fetches the
collection; any failure is wrapped as `Collection '...' not found: ...`. -/
def ChromaState.getCollection (st : ChromaState) (collectionName : String) :
    Except String ChromaCollection :=
  if isBlankName collectionName then
    .error ("Collection '" ++ collectionName ++ "' not found: Collection name cannot be empty")
  else
    match lookupColl collectionName st.collections with
    | some col => .ok col
    | none => .error ("Collection '" ++ collectionName ++ "' not found")

/-- Model of `ChromaService.create_collection`: if a collection of that name already
exists it is returned unchanged; otherwise a new empty collection with
coerced metadata is created.  Returns the (possibly updated) state and the
collection handle. -/
def ChromaState.createCollection (st : ChromaState) (collectionName : String)
    (metadata : List (String × MetaValue)) : ChromaState × ChromaCollection :=
  match lookupColl collectionName st.collections with
  | some col => (st, col)
  | none =>
      let col : ChromaCollection := { metadata := coerceMetadata metadata, docs := [] }
      ({ collections := st.collections ++ [(collectionName, col)] }, col)

/-- Model of `ChromaService.add_documents`: rejects empty arrays with a `ValueError`
(wrapped by the method's own handler), coerces each metadata dictionary to
primitive values, fetches the collection, and hands the triple to the
external client's `collection.add`, which validates that the three arrays
have equal length.  On success the given ids are returned. -/
def ChromaState.addDocuments (st : ChromaState) (collectionName : String)
    (documents : List String) (metadatas : List (List (String × MetaValue)))
    (ids : List ChromaDocId) : Except String (ChromaState × List ChromaDocId) :=
  if documents.isEmpty || metadatas.isEmpty || ids.isEmpty then
    .error ("Failed to add documents to collection '" ++ collectionName ++
      "': Documents, metadatas, and ids cannot be empty")
  else
    let safeMetadatas := metadatas.map coerceMetadata
    match st.getCollection collectionName with
    | .error e =>
        .error ("Failed to add documents to collection '" ++ collectionName ++ "': " ++ e)
    | .ok col =>
        if documents.length = ids.length ∧ metadatas.length = ids.length then
          let newEntries := ids.zip ((documents.zip safeMetadatas).map
            (fun td => ({ text := td.1, metadata := td.2 } : ChromaDoc)))
          let col2 : ChromaCollection := { col with docs := col.docs ++ newEntries }
          .ok ({ collections := setColl collectionName col2 st.collections }, ids)
        else
          .error ("Failed to add documents to collection '" ++ collectionName ++
            "': Unequal lengths for fields: ids, embeddings, metadatas, documents")

/-- Insertion step for the engine's nearest-first result ordering. -/
def insertByDist (key : ChromaDocId × ChromaDoc → Int) (x : ChromaDocId × ChromaDoc) :
    List (ChromaDocId × ChromaDoc) → List (ChromaDocId × ChromaDoc)
  | [] => [x]
  | y :: ys => if key x ≤ key y then x :: y :: ys else y :: insertByDist key x ys

/-- Ascending-distance sort modelling the external engine's ranked answer. -/
def sortByDist (key : ChromaDocId × ChromaDoc → Int) :
    List (ChromaDocId × ChromaDoc) → List (ChromaDocId × ChromaDoc)
  | [] => []
  | x :: xs => insertByDist key x (sortByDist key xs)

/-- One formatted search hit (`{'id': ..., 'document': ..., 'metadata': ...,
'distance': ...}`). -/
structure SearchHit where
  id : ChromaDocId
  document : String
  metadata : List (String × MetaValue)
  distance : Option Int
deriving DecidableEq, Repr

/-- The dictionary `ChromaService.search_documents` returns. -/
structure SearchResults where
  query : String
  results : List SearchHit
  total_results : Nat
deriving DecidableEq, Repr

/-- Model of `ChromaService.search_documents`: fetch the collection (a missing
collection therefore surfaces as a wrapped `Failed to search collection`
error), query the external engine for the `nResults` nearest stored
documents (abstracted by the distance oracle `dist`), and format them.  An
existing collection with no documents formats to zero results. -/
def ChromaState.searchDocuments (dist : String → String → Int) (st : ChromaState)
    (collectionName : String) (query : String) (nResults : Nat) :
    Except String SearchResults :=
  match st.getCollection collectionName with
  | .error e =>
      .error ("Failed to search collection '" ++ collectionName ++ "': " ++ e)
  | .ok col =>
      let ranked := (sortByDist (fun p => dist query p.2.text) col.docs).take nResults
      let formatted := ranked.map (fun p =>
        ({ id := p.1, document := p.2.text, metadata := p.2.metadata,
           distance := some (dist query p.2.text) } : SearchHit))
      .ok { query := query, results := formatted, total_results := formatted.length }

/-- Model of `ChromaService.delete_document`: fetch the collection, then
`collection.delete(ids=[id])` (a no-op when the id is absent). -/
def ChromaState.deleteDocument (st : ChromaState) (collectionName : String)
    (documentId : ChromaDocId) : Except String (ChromaState × Bool) :=
  match st.getCollection collectionName with
  | .error e =>
      .error ("Failed to delete document from collection '" ++ collectionName ++ "': " ++ e)
  | .ok col =>
      let col2 : ChromaCollection :=
        { col with docs := col.docs.filter (fun p => p.1 ≠ documentId) }
      .ok ({ collections := setColl collectionName col2 st.collections }, true)

/-- Model of `ChromaService.get_document_by_id`: fetch the collection, then
`collection.get(ids=[id])`; an absent id yields `None`. -/
def ChromaState.getDocumentById (st : ChromaState) (collectionName : String)
    (documentId : ChromaDocId) : Except String (Option ChromaDoc) :=
  match st.getCollection collectionName with
  | .error e =>
      .error ("Failed to get document from collection '" ++ collectionName ++ "': " ++ e)
  | .ok col => .ok (lookupDoc documentId col.docs)

/-- Model of `ChromaService.delete_collection`: the client raises when the collection
is absent. -/
def ChromaState.deleteCollection (st : ChromaState) (collectionName : String) :
    Except String (ChromaState × Bool) :=
  match lookupColl collectionName st.collections with
  | some _ =>
      .ok ({ collections := st.collections.filter (fun p => p.1 ≠ collectionName) }, true)
  | none => .error ("Failed to delete collection '" ++ collectionName ++ "'")

/-- One element yielded by `unstructured`'s DOCX/PPTX partitioners;
`isTextOrTable` marks the `(Text, Table)` instances the service keeps. -/
structure DocElement where
  isTextOrTable : Bool
  text : String
deriving DecidableEq, Repr

/-- The bytes of an uploaded file as the format parsers see them: PDF pages,
DOCX elements, PPTX elements, or bytes whose `read()`/parse raises with the
given message. -/
inductive FileBytes where
  | pdfBytes (pages : List String)
  | docxBytes (elements : List DocElement)
  | pptxBytes (elements : List DocElement)
  | unreadable (errMsg : String)
deriving DecidableEq, Repr

/-- An uploaded file handed to `FileExtractionService`. -/
structure UploadFileM where
  filename : String
  content : FileBytes
deriving DecidableEq, Repr

/-- Lower-casing, character by character. -/
def lowerStr (s : String) : String :=
  String.mk (s.data.map Char.toLower)

/-- The part of a filename after its last dot (the whole name when it has
no dot), i.e. `filename.split('.')[-1]`. -/
def afterLastDot (filename : String) : String :=
  String.mk ((filename.data.reverse.takeWhile (fun c => !(c == '.'))).reverse)

/-- Model of `'.' + file.filename.split('.')[-1].lower()`. -/
def fileExt (filename : String) : String :=
  "." ++ lowerStr (afterLastDot filename)

/-- Model of `FileExtractionService.extract_text_from_files`: a `for` loop appending
into one result list, with a per-file `try`/`except`.  An unsupported
extension appends one placeholder string; a PDF appends one string joining
its page texts; a DOCX/PPTX appends one string per `(Text, Table)` element;
a file whose read or parse raises appends one inline error string.  A
parser invoked on bytes of the wrong format raises (modelled message
`"invalid file"`), which the same per-file handler turns into an inline
error string. -/
def extractTextFromFiles : List UploadFileM → List String
  | [] => []
  | file :: rest =>
      (let ext := fileExt file.filename
      if ext ≠ ".pdf" ∧ ext ≠ ".docx" ∧ ext ≠ ".pptx" then
        ["Unsupported file type for " ++ file.filename ++
          ". Only PDF, DOCX, and PPTX are supported."]
      else
        match file.content with
        | .unreadable e =>
            ["Error processing file " ++ file.filename ++ ": " ++ e]
        | .pdfBytes pages =>
            if ext = ".pdf" then
              [String.intercalate "\n" pages]
            else
              ["Error processing file " ++ file.filename ++ ": invalid file"]
        | .docxBytes elements =>
            if ext = ".docx" then
              (elements.filter (fun e => e.isTextOrTable)).map (fun e => e.text)
            else
              ["Error processing file " ++ file.filename ++ ": invalid file"]
        | .pptxBytes elements =>
            if ext = ".pptx" then
              (elements.filter (fun e => e.isTextOrTable)).map (fun e => e.text)
            else
              ["Error processing file " ++ file.filename ++ ": invalid file"])
      ++ extractTextFromFiles rest

/-- A `KnowledgeBase` row (backend/app/database: id, name, owner, backing
collection name, active flag). -/
structure KnowledgeBaseRow where
  id : Nat
  name : String
  description : Option String := none
  user_id : String := "default_user"
  chroma_collection_name : String
  is_active : Bool := true
deriving DecidableEq, Repr

/-- A `KnowledgeBaseContent` row: the relational system-of-record entry for
one ingested item.  Timestamps are opaque strings. -/
structure ContentRecord where
  id : Nat
  knowledge_base_id : Nat
  content_type : String
  original_filename : String
  file_path : Option String := none
  file_size : Option Nat := none
  mime_type : Option String := none
  extracted_text : Option String := none
  summary : Option String := none
  content_metadata : Option (List (String × MetaValue)) := none
  processing_status : String
  processing_error : Option String := none
  chroma_document_id : Option ChromaDocId := none
  created_at : String := ""
  updated_at : String := ""
deriving DecidableEq, Repr

/-- A `Provider` row (only the fields `process_content` consults). -/
structure ProviderRow where
  id : Nat
  name : String
  is_active : Bool
deriving DecidableEq, Repr

/-- A `Model` row (only the fields `process_content` consults). -/
structure ModelRow where
  id : Nat
  provider_id : Nat
  name : String
deriving DecidableEq, Repr

/-- The relational store as the knowledge-base service queries it. -/
structure Db where
  knowledge_bases : List KnowledgeBaseRow
  contents : List ContentRecord
  providers : List ProviderRow
  models : List ModelRow
deriving DecidableEq, Repr

/-- The whole system state: relational rows, ChromaDB state, and the fresh
nonce counter modelling the uuid4 supply. -/
structure World where
  db : Db
  chroma : ChromaState
  nextNonce : Nat
deriving DecidableEq, Repr

/-- Model of `db.query(KnowledgeBaseContent).filter(id == content_id).first()`. -/
def findContent (db : Db) (contentId : Nat) : Option ContentRecord :=
  db.contents.find? (fun c => c.id = contentId)

/-- Model of `db.query(KnowledgeBase).filter(id == kb_id).first()`. -/
def findKb (db : Db) (kbId : Nat) : Option KnowledgeBaseRow :=
  db.knowledge_bases.find? (fun kb => kb.id = kbId)

/-- Model of `db.query(Provider).filter(id == provider_id).first()`. -/
def findProvider (db : Db) (providerId : Nat) : Option ProviderRow :=
  db.providers.find? (fun p => p.id = providerId)

/-- Model of `db.query(Model).filter(id == model_id, provider_id == provider_id).first()`. -/
def findModel (db : Db) (modelId providerId : Nat) : Option ModelRow :=
  db.models.find? (fun m => m.id = modelId ∧ m.provider_id = providerId)

/-- Publish a mutated content row (the SQLAlchemy session holds the row by
identity; a commit persists the mutation in place). -/
def updateContent (db : Db) (c : ContentRecord) : Db :=
  { db with contents := db.contents.map (fun c2 => if c2.id = c.id then c else c2) }

/-- Python truthiness of an optional string (`None` and `""` are falsy). -/
def truthy : Option String → Bool
  | some s => !(s.isEmpty)
  | none => false

/-- The request dictionary `_generate_summary` hands to
`ProviderService.run_prompt`; the external generation call is abstracted as
an oracle `LlmRequest → Except String String` returning the `output_text`. -/
structure LlmRequest where
  provider_id : Nat
  model_id : Nat
  text : String
  system_prompt : String
  temperature : Rat
  max_tokens : Nat
deriving DecidableEq, Repr

/-- The summarization prompt built by
`KnowledgeBaseService._generate_summary` around the (truncated) extracted
text. -/
def summaryPromptFor (contentPreview : String) : String :=
  "Please provide a comprehensive and detailed summary of the following content. " ++
  "Your summary should be thorough and capture all important information for knowledge retrieval purposes.\n" ++
  "Guidelines for your summary:\n" ++
  "1. Include all key concepts, facts, and main ideas\n" ++
  "2. Preserve important details, numbers, dates, and specific terminology\n" ++
  "3. Maintain the logical structure and relationships between concepts\n" ++
  "4. Include any methodologies, processes, or step-by-step procedures mentioned\n" ++
  "5. Highlight important conclusions, findings, or recommendations\n" ++
  "6. Make it searchable by including relevant keywords and phrases\n" ++
  "7. Aim for completeness while maintaining clarity and readability\n" ++
  "Content to summarize:\n" ++ contentPreview ++ "\nDetailed Summary:"

/-- The fixed system instruction `_generate_summary` sends. -/
def summarySystemPrompt : String :=
  "You are a knowledge extraction specialist that creates detailed, comprehensive summaries " ++
  "for information retrieval systems. Your summaries should be thorough, well-structured, and " ++
  "preserve all critical information including specific details, terminology, and relationships " ++
  "between concepts. Focus on creating summaries that will enable accurate semantic search and " ++
  "knowledge retrieval."

/-- Model of `KnowledgeBaseService._generate_summary`: without extracted text it
returns the fixed placeholder; otherwise it truncates the text to its first
15000 characters, issues one generation call at temperature 0.3 with the
caller's token budget, and returns the produced `output_text` verbatim.  A
failing call propagates wrapped as `Failed to generate summary: ...`. -/
def generateSummary (llm : LlmRequest → Except String String) (c : ContentRecord)
    (providerId modelId maxTokens : Nat) : Except String String :=
  if !(truthy c.extracted_text) then
    .ok "No text content to summarize"
  else
    let text := c.extracted_text.getD ""
    let contentPreview := text.take 15000
    match llm { provider_id := providerId, model_id := modelId,
                text := summaryPromptFor contentPreview,
                system_prompt := summarySystemPrompt,
                temperature := (3 : Rat) / 10, max_tokens := maxTokens } with
    | .error e => .error ("Failed to generate summary: " ++ e)
    | .ok out => .ok out

/-- Model of `KnowledgeBaseService._extract_text_from_file`: for a `document` the
stored file is read from disk (`fs` maps file paths to bytes) and handed to
`FileExtractionService.extract_text_from_files`, keeping the first result
(or `""`); a missing path raises inside the extractor's per-file handler
and so yields its inline error string.  For an `image` only a filename
placeholder is produced (no OCR).  Any other type yields `""`. -/
def extractTextFromFileKB (fs : String → Option FileBytes) (c : ContentRecord) : String :=
  if c.content_type = "document" then
    let bytes : FileBytes :=
      match c.file_path with
      | none => .unreadable "expected str, bytes or os.PathLike object, not NoneType"
      | some p =>
          match fs p with
          | none => .unreadable ("No such file or directory: '" ++ p ++ "'")
          | some b => b
    (extractTextFromFiles [{ filename := c.original_filename, content := bytes }]).headD ""
  else if c.content_type = "image" then
    "Image file: " ++ c.original_filename
  else
    ""

/-- The descriptive metadata dictionary `_add_to_chroma` builds from a
content record. -/
def chromaMetadataOf (c : ContentRecord) : List (String × MetaValue) :=
  [("content_id", .str (toString c.id)),
   ("content_type", .str c.content_type),
   ("original_filename", .str c.original_filename),
   ("file_size", .int (c.file_size.getD 0)),
   ("mime_type", .str (c.mime_type.getD "text/plain")),
   ("created_at", .str c.created_at)]

/-- Model of `KnowledgeBaseService._add_to_chroma`: the stored document text
is `content.summary if content.summary else content.extracted_text`; an
empty result raises.  Descriptive metadata is built from the record, the
backing collection is fetched and lazily recreated if missing, and a fresh
document id `doc_{content.id}_{uuid4().hex[:8]}` (modelled as
`(content.id, nonce)`) is added with the document text.  Every failure is
wrapped as `Failed to add to ChromaDB: ...`. -/
def addToChroma (now : String) (w : World) (c : ContentRecord) (collectionName : String) :
    Except String (World × ChromaDocId) :=
  let documentText : Option String := if truthy c.summary then c.summary else c.extracted_text
  if !(truthy documentText) then
    .error "Failed to add to ChromaDB: No text content to add to vector database"
  else
    let metadata : List (String × MetaValue) := chromaMetadataOf c
    let chroma1 : ChromaState :=
      match w.chroma.getCollection collectionName with
      | .ok _ => w.chroma
      | .error _ =>
          (w.chroma.createCollection collectionName
            [("name", .str "Knowledge Base Collection"), ("created_at", .str now)]).1
    let documentId : ChromaDocId := { contentId := c.id, nonce := w.nextNonce }
    match chroma1.addDocuments collectionName [documentText.getD ""] [metadata] [documentId] with
    | .error e => .error ("Failed to add to ChromaDB: " ++ e)
    | .ok (chroma2, _) =>
        .ok ({ w with chroma := chroma2, nextNonce := w.nextNonce + 1 }, documentId)

/-- The extraction step inside `process_content`'s inner `try`: a
`document`/`image` record that has no extracted text yet gets the file
extraction result written onto it; anything else is left as is. -/
def extractStage (fs : String → Option FileBytes) (content1 : ContentRecord) :
    ContentRecord :=
  if (content1.content_type = "document" ∨ content1.content_type = "image")
      ∧ !(truthy content1.extracted_text) then
    { content1 with extracted_text := some (extractTextFromFileKB fs content1) }
  else content1

/-- The outcome of one `process_content` call: the state afterwards, the
returned value or raised message, and the ordered `processing_status`
values committed for the record during the call. -/
structure ProcResult where
  world : World
  result : Except String Bool
  statusTrace : List String
deriving Repr

/-- The `except` block inside `process_content`'s inner `try`: mark the
record `failed`, persist the exception message, commit, and re-raise (the
outer handler wraps the message as `Failed to process content: ...`). -/
def processInnerFail (w : World) (c : ContentRecord) (msg : String) : ProcResult :=
  let cf := { c with processing_status := "failed", processing_error := some msg }
  { world := { w with db := updateContent w.db cf },
    result := .error ("Failed to process content: " ++ msg),
    statusTrace := ["processing", "failed"] }

/-- Model of `KnowledgeBaseService.process_content`: look up the record, its
knowledge base, and the requested provider (which must be active) and model
(which must belong to that provider) — any of these failing raises before
any state change.  Then commit `processing`; inside the inner `try`:
extract text for `document`/`image` records that lack it, require
`extracted_text` for `text` records, take the caller's custom summary
verbatim when truthy or else generate one, index the record into the
knowledge base's collection recording the returned id, and commit
`completed`.  Any inner exception is persisted on the record as `failed`
and re-raised. -/
def processContent (llm : LlmRequest → Except String String)
    (fs : String → Option FileBytes) (now : String) (w : World)
    (contentId providerId modelId : Nat) (customSummary : Option String)
    (maxSummaryTokens : Nat) : ProcResult :=
  match findContent w.db contentId with
  | none => { world := w, result := .error "Failed to process content: Content not found",
              statusTrace := [] }
  | some content =>
    match findKb w.db content.knowledge_base_id with
    | none => { world := w,
                result := .error "Failed to process content: Knowledge base not found",
                statusTrace := [] }
    | some kb =>
      match findProvider w.db providerId with
      | none => { world := w,
                  result := .error ("Failed to process content: Provider " ++
                    toString providerId ++ " not found or inactive"),
                  statusTrace := [] }
      | some provider =>
        if !provider.is_active then
          { world := w,
            result := .error ("Failed to process content: Provider " ++
              toString providerId ++ " not found or inactive"),
            statusTrace := [] }
        else
          match findModel w.db modelId providerId with
          | none => { world := w,
                      result := .error ("Failed to process content: Model " ++
                        toString modelId ++ " not found for provider " ++ toString providerId),
                      statusTrace := [] }
          | some _ =>
            let content1 := { content with processing_status := "processing" }
            let w1 := { w with db := updateContent w.db content1 }
            let content2 := extractStage fs content1
            if content2.content_type = "text" ∧ !(truthy content2.extracted_text) then
              processInnerFail w1 content2 "Text content must have extracted_text field set"
            else
              let summaryRes : Except String String :=
                if truthy customSummary then .ok (customSummary.getD "")
                else generateSummary llm content2 providerId modelId maxSummaryTokens
              match summaryRes with
              | .error m => processInnerFail w1 content2 m
              | .ok s =>
                let content3 := { content2 with summary := some s }
                match addToChroma now w1 content3 kb.chroma_collection_name with
                | .error m =>
                    processInnerFail w1 content3 ("Failed to add to ChromaDB: " ++ m)
                | .ok (w2, docId) =>
                    let content4 := { content3 with
                      chroma_document_id := some docId
                      processing_status := "completed"
                      updated_at := now }
                    { world := { w2 with db := updateContent w2.db content4 },
                      result := .ok true,
                      statusTrace := ["processing", "completed"] }

/-- Model of `KnowledgeBaseService.update_content_summary` (re-summarize): a missing
record returns `False`; otherwise the summary and timestamp are set, and if
the record is already indexed the old ChromaDB document is deleted first
and the new summary is re-added under a fresh id which replaces the stored
one.  On success everything is committed; a raise after the ChromaDB delete
rolls the row mutations back but cannot undo the vector-store delete. -/
def updateContentSummary (now : String) (w : World) (contentId : Nat) (summary : String) :
    World × Except String Bool :=
  match findContent w.db contentId with
  | none => (w, .ok false)
  | some content =>
    let kbOpt := findKb w.db content.knowledge_base_id
    let content1 := { content with summary := some summary, updated_at := now }
    match content.chroma_document_id with
    | none => ({ w with db := updateContent w.db content1 }, .ok true)
    | some oldId =>
      match kbOpt with
      | none =>
          (w, .error ("Failed to update content summary: " ++
            "'NoneType' object has no attribute 'chroma_collection_name'"))
      | some kb =>
        match w.chroma.deleteDocument kb.chroma_collection_name oldId with
        | .error e => (w, .error ("Failed to update content summary: " ++ e))
        | .ok (chroma1, _) =>
          match addToChroma now { w with chroma := chroma1 } content1
              kb.chroma_collection_name with
          | .error e =>
              ({ w with chroma := chroma1 },
               .error ("Failed to update content summary: " ++ e))
          | .ok (w2, newId) =>
              let content2 := { content1 with chroma_document_id := some newId }
              ({ w2 with db := updateContent w2.db content2 }, .ok true)

/-- Autoincrement primary key for a freshly inserted content row. -/
def nextContentId (db : Db) : Nat :=
  (db.contents.map (fun c => c.id)).foldr Nat.max 0 + 1

/-- Model of `KnowledgeBaseService.add_text_content`: requires the knowledge base to
exist, then inserts a `text` record in `pending` whose `extracted_text` is
the supplied text; a truthy title becomes the filename, otherwise a
timestamped default; a truthy description is kept in the metadata bag. -/
def addTextContent (now : String) (w : World) (kbId : Nat) (text : String)
    (title : Option String) (description : Option String) :
    World × Except String ContentRecord :=
  match findKb w.db kbId with
  | none => (w, .error "Failed to add text content: Knowledge base not found")
  | some _ =>
    let content : ContentRecord :=
      { id := nextContentId w.db, knowledge_base_id := kbId, content_type := "text",
        original_filename := if truthy title then title.getD "" else "Text Content " ++ now,
        extracted_text := some text,
        content_metadata := if truthy description then
            some [("description", MetaValue.str (description.getD ""))]
          else none,
        processing_status := "pending", created_at := now, updated_at := now }
    ({ w with db := { w.db with contents := w.db.contents ++ [content] } }, .ok content)

/-- An uploaded file as `upload_files` receives it. -/
structure IncomingFile where
  filename : String
  mime_type : Option String
  size : Nat
deriving DecidableEq, Repr

/-- Model of `os.path.splitext(filename)[1]`, as used to build stored filenames and
to classify content; `""` when there is no extension. -/
def splitextExt (filename : String) : String :=
  if filename.data.contains '.' then "." ++ afterLastDot filename else ""

/-- Model of `KnowledgeBaseService._determine_content_type`: image extensions map to
`image`; everything else (including the known document extensions) defaults
to `document`. -/
def determineContentType (filename : String) : String :=
  let ext := lowerStr (splitextExt filename)
  if ext = ".jpg" ∨ ext = ".jpeg" ∨ ext = ".png" ∨ ext = ".gif" ∨
      ext = ".bmp" ∨ ext = ".tiff" then "image"
  else if ext = ".pdf" ∨ ext = ".docx" ∨ ext = ".doc" ∨ ext = ".txt" ∨ ext = ".md" then
    "document"
  else "document"

/-- The rows `upload_files` inserts: one `pending` record per file, each
saved under a fresh uuid-named path. -/
def mkUploadRecords (now : String) (kbId : Nat) : Nat → Nat → List IncomingFile →
    List ContentRecord
  | _, _, [] => []
  | baseId, baseNonce, f :: rest =>
      { id := baseId, knowledge_base_id := kbId,
        content_type := determineContentType f.filename,
        original_filename := f.filename,
        file_path := some ("./uploads/knowledge_bases/" ++ toString kbId ++ "/upload_" ++
          toString baseNonce ++ splitextExt f.filename),
        file_size := some f.size, mime_type := f.mime_type,
        processing_status := "pending", created_at := now, updated_at := now }
      :: mkUploadRecords now kbId (baseId + 1) (baseNonce + 1) rest

/-- Model of `KnowledgeBaseService.upload_files`: requires the knowledge base to
exist, saves each file under a fresh name, and inserts one `pending`
content record per file. -/
def uploadFiles (now : String) (w : World) (kbId : Nat) (files : List IncomingFile) :
    World × Except String (List ContentRecord) :=
  match findKb w.db kbId with
  | none => (w, .error "Failed to upload files: Knowledge base not found")
  | some _ =>
    let newRecords := mkUploadRecords now kbId (nextContentId w.db) w.nextNonce files
    ({ w with
       db := { w.db with contents := w.db.contents ++ newRecords }
       nextNonce := w.nextNonce + files.length },
     .ok newRecords)

/-- Model of `KnowledgeBaseService.search_knowledge_base` (the retrieval entry
point): resolve the knowledge base, delegate to
`ChromaService.search_documents` on its backing collection, and return the
result; failures are wrapped as `Failed to search knowledge base: ...`. -/
def searchKnowledgeBase (dist : String → String → Int) (w : World) (kbId : Nat)
    (query : String) (nResults : Nat) : Except String SearchResults :=
  match findKb w.db kbId with
  | none => .error "Failed to search knowledge base: Knowledge base not found"
  | some kb =>
    match w.chroma.searchDocuments dist kb.chroma_collection_name query nResults with
    | .error e => .error ("Failed to search knowledge base: " ++ e)
    | .ok r => .ok r

/-- The text the vector store resolves a document id to (none when the
collection or the id is absent). -/
def docTextAt (st : ChromaState) (collectionName : String) (i : ChromaDocId) :
    Option String :=
  match st.getDocumentById collectionName i with
  | .ok (some d) => some d.text
  | _ => none

/-- The stored metadata a document id resolves to. -/
def docMetaAt (st : ChromaState) (collectionName : String) (i : ChromaDocId) :
    Option (List (String × MetaValue)) :=
  match st.getDocumentById collectionName i with
  | .ok (some d) => some d.metadata
  | _ => none

/-- Every document nonce stored anywhere in the vector store is below `n`:
the well-formedness fact that the fresh-uuid counter has never been
reused. -/
def chromaNonceBound (st : ChromaState) (n : Nat) : Bool :=
  st.collections.all (fun p => p.2.docs.all (fun q => q.1.nonce < n))

/-- The fresh-id invariant for a whole world. -/
def nonceBound (w : World) : Bool :=
  chromaNonceBound w.chroma w.nextNonce

/-!  Concrete instances used by counterexamples and witnesses. -/

/-- A distance oracle for concrete runs. -/
def exDist : String → String → Int := fun _ _ => 0

/-- A knowledge base whose backing collection is named `kbcoll`. -/
def exKb : KnowledgeBaseRow := { id := 1, name := "kb", chroma_collection_name := "kbcoll" }

/-- An active provider row. -/
def exProvider : ProviderRow := { id := 1, name := "openai", is_active := true }

/-- A model row owned by provider 1. -/
def exModel : ModelRow := { id := 1, provider_id := 1, name := "gpt-4" }

/-- A `text` content record that previously failed processing. -/
def exFailedRecord : ContentRecord :=
  { id := 7, knowledge_base_id := 1, content_type := "text", original_filename := "notes.txt",
    extracted_text := some "RAW", processing_status := "failed",
    processing_error := some "previous error" }

/-- A world with one knowledge base (collection present and empty), the
failed record, and an active provider/model pair. -/
def exWorld : World :=
  { db := { knowledge_bases := [exKb], contents := [exFailedRecord],
            providers := [exProvider], models := [exModel] },
    chroma := { collections := [("kbcoll", { metadata := [], docs := [] })] },
    nextNonce := 5 }

/-- The same world but with no backing vector collection at all. -/
def exWorldNoColl : World := { exWorld with chroma := { collections := [] } }

/-- The same world but with the provider switched inactive. -/
def exWorldInactive : World :=
  { exWorld with db := { exWorld.db with providers := [{ exProvider with is_active := false }] } }

/-- A generation oracle returning an empty `output_text`. -/
def exLlmEmpty : LlmRequest → Except String String := fun _ => .ok ""

/-- A generation oracle returning a fixed summary. -/
def exLlmGood : LlmRequest → Except String String := fun _ => .ok "A dense summary."

/-- A generation oracle whose call always fails. -/
def exLlmFail : LlmRequest → Except String String := fun _ => .error "boom"

/-- An empty file system. -/
def exFs : String → Option FileBytes := fun _ => none

/-- A completed, indexed record for the re-summarize scenario. -/
def exDoneRecord : ContentRecord :=
  { exFailedRecord with
    processing_status := "completed"
    processing_error := none
    summary := some "OLD"
    chroma_document_id := some { contentId := 7, nonce := 2 } }

/-- A world where `exDoneRecord`'s vector entry exists in the collection. -/
def exWorldDone : World :=
  { exWorld with
    db := { exWorld.db with contents := [exDoneRecord] }
    chroma := { collections := [("kbcoll",
      { metadata := [],
        docs := [({ contentId := 7, nonce := 2 }, { text := "OLD", metadata := [] })] })] } }

/-- A DOCX upload whose partitioner yields two text elements. -/
def exDocxFile : UploadFileM :=
  { filename := "a.docx", content := .docxBytes [⟨true, "p1"⟩, ⟨true, "p2"⟩] }

/-- A Chroma state holding one empty collection `c`. -/
def exSt : ChromaState := { collections := [("c", { metadata := [], docs := [] })] }

/-- The state after adding a document whose metadata holds a `None` value. -/
def exStAfterNone : ChromaState :=
  match exSt.addDocuments "c" ["d"] [[("k", MetaValue.pynone)]] [{ contentId := 1, nonce := 0 }] with
  | .ok p => p.1
  | .error _ => exSt

/-- The record created by registering text "X" in `exWorld`. -/
def exTextReg : World × Except String ContentRecord :=
  addTextContent "T" exWorld 1 "X" none none

/-- Whether an operation raised (propagated an exception). -/
def isErr {α : Type} : Except String α → Bool
  | .error _ => true
  | .ok _ => false

/-- The run that reprocesses the failed record with a generation oracle
whose call yields an empty `output_text`. -/
def exRunEmptySummary : ProcResult :=
  processContent exLlmEmpty exFs "T" exWorld 7 1 1 none 2000

/-- The run that reprocesses the failed record with a working generation
oracle. -/
def exRunGood : ProcResult :=
  processContent exLlmGood exFs "T" exWorld 7 1 1 none 2000

/-- The state reached by re-adding `exDoneRecord` in `exWorldDone`. -/
def exAddWorld : World :=
  match addToChroma "T" exWorldDone exDoneRecord "kbcoll" with
  | .ok p => p.1
  | .error _ => exWorldDone

/-- A knowledge base whose backing collection name is blank, making every
vector-store add fail (a model-reachable indexing failure). -/
def exKbBlank : KnowledgeBaseRow := { id := 1, name := "kb", chroma_collection_name := "" }

/-- A world like `exWorld` but with the blank-named knowledge base and no
collections, so indexing raises inside `process_content`'s inner try. -/
def exWorldBlank : World :=
  { db := { knowledge_bases := [exKbBlank], contents := [exFailedRecord],
            providers := [exProvider], models := [exModel] },
    chroma := { collections := [] },
    nextNonce := 5 }

/-!  Shared lemmas about the association-list primitives. -/

lemma lookupColl_mem {k : String} {l : List (String × ChromaCollection)}
    {c : ChromaCollection} (h : lookupColl k l = some c) : (k, c) ∈ l := by
  induction l with
  | nil => simp [lookupColl] at h
  | cons hd tl ih =>
      obtain ⟨k2, v⟩ := hd
      by_cases hk : k2 = k
      · subst hk
        simp [lookupColl] at h
        simp [h]
      · simp [lookupColl, hk] at h
        exact List.mem_cons_of_mem _ (ih h)

lemma lookupDoc_mem {i : ChromaDocId} {l : List (ChromaDocId × ChromaDoc)}
    {d : ChromaDoc} (h : lookupDoc i l = some d) : (i, d) ∈ l := by
  induction l with
  | nil => simp [lookupDoc] at h
  | cons hd tl ih =>
      obtain ⟨j, v⟩ := hd
      by_cases hk : j = i
      · subst hk
        simp [lookupDoc] at h
        simp [h]
      · simp [lookupDoc, hk] at h
        exact List.mem_cons_of_mem _ (ih h)

lemma lookupColl_append_right {k : String} {l l2 : List (String × ChromaCollection)}
    (h : lookupColl k l = none) : lookupColl k (l ++ l2) = lookupColl k l2 := by
  induction l with
  | nil => simp
  | cons hd tl ih =>
      obtain ⟨k2, v⟩ := hd
      by_cases hk : k2 = k
      · simp [lookupColl, hk] at h
      · simp [lookupColl, hk] at h ⊢
        exact ih h

lemma lookupColl_setColl_self {k : String} {l : List (String × ChromaCollection)}
    {c0 c : ChromaCollection} (h : lookupColl k l = some c0) :
    lookupColl k (setColl k c l) = some c := by
  induction l with
  | nil => simp [lookupColl] at h
  | cons hd tl ih =>
      obtain ⟨k2, v⟩ := hd
      by_cases hk : k2 = k
      · simp [setColl, lookupColl, hk]
      · simp [lookupColl, hk] at h
        simp [setColl, lookupColl, hk]
        exact ih h

lemma lookupDoc_append_right {i : ChromaDocId} {l l2 : List (ChromaDocId × ChromaDoc)}
    (h : lookupDoc i l = none) : lookupDoc i (l ++ l2) = lookupDoc i l2 := by
  induction l with
  | nil => simp
  | cons hd tl ih =>
      obtain ⟨j, v⟩ := hd
      by_cases hk : j = i
      · simp [lookupDoc, hk] at h
      · simp [lookupDoc, hk] at h ⊢
        exact ih h

lemma lookupDoc_filter_self (i : ChromaDocId) (l : List (ChromaDocId × ChromaDoc)) :
    lookupDoc i (l.filter (fun p => p.1 ≠ i)) = none := by
  induction l with
  | nil => simp [lookupDoc]
  | cons hd tl ih =>
      obtain ⟨j, v⟩ := hd
      rw [List.filter_cons]
      by_cases hk : j = i
      · rw [if_neg (by simp [hk])]
        exact ih
      · rw [if_pos (by simp [hk])]
        rw [lookupDoc, if_neg hk]
        exact ih

lemma lookupDoc_none_of_bound {n : Nat} {cid : Nat} {l : List (ChromaDocId × ChromaDoc)}
    (h : ∀ q ∈ l, q.1.nonce < n) :
    lookupDoc { contentId := cid, nonce := n } l = none := by
  induction l with
  | nil => simp [lookupDoc]
  | cons hd tl ih =>
      obtain ⟨j, v⟩ := hd
      have hj : j.nonce < n := h (j, v) (List.mem_cons_self _ _)
      have hne : j ≠ { contentId := cid, nonce := n } := by
        intro he
        rw [he] at hj
        exact lt_irrefl n hj
      simp [lookupDoc, hne]
      exact ih (fun q hq => h q (List.mem_cons_of_mem _ hq))

lemma bound_of_lookupColl {st : ChromaState} {n : Nat} {name : String}
    {col : ChromaCollection} (hb : chromaNonceBound st n = true)
    (hc : lookupColl name st.collections = some col) :
    ∀ q ∈ col.docs, q.1.nonce < n := by
  intro q hq
  have hmem := lookupColl_mem hc
  have h1 := (List.all_eq_true.mp hb) (name, col) hmem
  have h2 := (List.all_eq_true.mp h1) q hq
  simpa using h2

lemma chromaNonceBound_setColl {st : ChromaState} {n : Nat} {name : String}
    {c2 : ChromaCollection} (hb : chromaNonceBound st n = true)
    (hall : ∀ q ∈ c2.docs, q.1.nonce < n) :
    chromaNonceBound { collections := setColl name c2 st.collections } n = true := by
  unfold chromaNonceBound at hb ⊢
  rw [List.all_eq_true] at hb ⊢
  intro p hp
  obtain ⟨st2⟩ := st
  induction st2 with
  | nil => simp [setColl] at hp
  | cons hd tl ih =>
      obtain ⟨k2, v⟩ := hd
      by_cases hk : k2 = name
      · simp [setColl, hk] at hp
        rcases hp with hp | hp
        · subst hp
          simp only [List.all_eq_true]
          intro q hq
          simpa using hall q hq
        · exact hb p (List.mem_cons_of_mem _ hp)
      · simp [setColl, hk] at hp
        rcases hp with hp | hp
        · subst hp
          exact hb (k2, v) (List.mem_cons_self _ _)
        · exact ih (fun p2 hp2 => hb p2 (List.mem_cons_of_mem _ hp2)) hp

lemma truthy_some {s : String} (h : ¬ s = "") : truthy (some s) = true := by
  have he : s.isEmpty = false := by
    cases hb : s.isEmpty
    · rfl
    · exact absurd ((String.isEmpty_iff s).mp hb) h
  simp [truthy, he]

lemma coerceMetadata_chromaMetadataOf (c : ContentRecord) :
    coerceMetadata (chromaMetadataOf c) = chromaMetadataOf c := by
  simp [coerceMetadata, chromaMetadataOf, coerceValue]

lemma getCollection_of_lookup {st : ChromaState} {name : String} {col : ChromaCollection}
    (hname : isBlankName name = false) (hcol : lookupColl name st.collections = some col) :
    st.getCollection name = .ok col := by
  unfold ChromaState.getCollection
  rw [hname, if_neg (by simp), hcol]

lemma addToChroma_ok (now : String) (w : World) (c : ContentRecord) (name : String)
    (s : String) (col : ChromaCollection)
    (hname : isBlankName name = false)
    (hcol : lookupColl name w.chroma.collections = some col)
    (hsum : c.summary = some s) (hs : ¬ s = "") :
    addToChroma now w c name = .ok
      ({ w with
         chroma :=
           { collections :=
               setColl name
                 ({ col with
                    docs := col.docs ++
                      [({ contentId := c.id, nonce := w.nextNonce },
                        { text := s, metadata := chromaMetadataOf c })] })
                 w.chroma.collections }
         nextNonce := w.nextNonce + 1 },
       { contentId := c.id, nonce := w.nextNonce }) := by
  have hts : truthy (some s) = true := truthy_some hs
  have hget : w.chroma.getCollection name = .ok col := getCollection_of_lookup hname hcol
  unfold addToChroma
  rw [hsum]
  simp only [hts, if_true, Bool.not_true, Bool.false_eq_true, if_false]
  rw [hget]
  unfold ChromaState.addDocuments
  simp only [List.isEmpty_cons, Bool.false_or, Bool.or_self, Bool.false_eq_true, if_false]
  rw [hget]
  simp only [List.length_singleton, and_self, if_true, List.zip_cons_cons, List.map_cons,
    List.zip_nil_right, List.map_nil, List.zip_nil_left, coerceMetadata_chromaMetadataOf,
    Option.getD_some]

lemma find?_update_list {l : List ContentRecord} {cid : Nat} {c cnew : ContentRecord}
    (h : l.find? (fun x => x.id = cid) = some c) (hid : cnew.id = c.id) :
    (l.map (fun c2 => if c2.id = cnew.id then cnew else c2)).find?
      (fun x => x.id = cid) = some cnew := by
  have hcid : c.id = cid := by
    have := List.find?_some h
    simpa using this
  induction l with
  | nil => simp at h
  | cons a l ih =>
      by_cases ha : a.id = cid
      · have hac : a = c := by
          rw [List.find?_cons_of_pos] at h
          · exact Option.some.inj h
          · simpa using ha
        subst hac
        have hhead : (if a.id = cnew.id then cnew else a) = cnew := by
          rw [if_pos]
          omega
        simp only [List.map_cons, hhead]
        rw [List.find?_cons_of_pos]
        simp
        omega
      · rw [List.find?_cons_of_neg] at h
        · have hhead : (if a.id = cnew.id then cnew else a) = a := by
            rw [if_neg]
            omega
          simp only [List.map_cons, hhead]
          rw [List.find?_cons_of_neg]
          · exact ih h
          · simpa using ha
        · simpa using ha

lemma findContent_updateContent_self {db : Db} {cid : Nat} {c cnew : ContentRecord}
    (h : findContent db cid = some c) (hid : cnew.id = c.id) :
    findContent (updateContent db cnew) cid = some cnew := by
  unfold findContent updateContent at *
  exact find?_update_list h hid

/-!  Claim theorems. -/

/-- C9: calling `create_collection` when a collection of that name already
exists succeeds, returns the same underlying collection as the first call,
changes nothing, and creates no duplicate. -/
theorem create_collection_idempotent (st : ChromaState) (name : String)
    (m m' : List (String × MetaValue)) (st1 : ChromaState) (c1 : ChromaCollection)
    (h : st.createCollection name m = (st1, c1)) :
    st1.createCollection name m' = (st1, c1) := by
  unfold ChromaState.createCollection at h ⊢
  cases hl : lookupColl name st.collections with
  | some col =>
      rw [hl] at h
      obtain ⟨h1, h2⟩ := Prod.mk.injEq .. ▸ h
      subst h1
      subst h2
      rw [hl]
  | none =>
      rw [hl] at h
      obtain ⟨h1, h2⟩ := Prod.mk.injEq .. ▸ h
      subst h1
      subst h2
      have : lookupColl name
          (st.collections ++ [(name, { metadata := coerceMetadata m, docs := [] })]) =
          some { metadata := coerceMetadata m, docs := [] } := by
        rw [lookupColl_append_right hl]
        simp [lookupColl]
      rw [this]

/-- Witness for C9 at a concrete state. -/
theorem create_collection_idempotent_witness :
    ChromaState.createCollection
      { collections := [("c", { metadata := [], docs := [] })] } "c" [] =
      ({ collections := [("c", { metadata := [], docs := [] })] },
       { metadata := [], docs := [] }) :=
  create_collection_idempotent { collections := [] } "c" [] [] _ _ rfl

/-- C1 counterexample: searching a knowledge base whose backing collection
was never created raises a wrapped not-found error instead of returning
zero results. -/
theorem search_absent_collection_raises :
    isErr (searchKnowledgeBase exDist exWorldNoColl 1 "q" 10) = true := rfl

/-- C1 (amended): searching a knowledge base whose backing collection
exists but is empty returns zero results and no error; an absent collection
instead raises (see the counterexample). -/
theorem search_empty_collection_zero_results (dist : String → String → Int)
    (w : World) (kbId : Nat) (query : String) (n : Nat)
    (kb : KnowledgeBaseRow) (col : ChromaCollection)
    (hkb : findKb w.db kbId = some kb)
    (hcol : w.chroma.getCollection kb.chroma_collection_name = .ok col)
    (hempty : col.docs = []) :
    searchKnowledgeBase dist w kbId query n =
      .ok { query := query, results := [], total_results := 0 } := by
  simp only [searchKnowledgeBase, hkb]
  simp only [ChromaState.searchDocuments, hcol, hempty]
  simp [sortByDist]

/-- Witness for C1 at a concrete empty collection. -/
theorem search_empty_collection_zero_results_witness :
    searchKnowledgeBase exDist exWorld 1 "q" 10 =
      .ok { query := "q", results := [], total_results := 0 } :=
  search_empty_collection_zero_results exDist exWorld 1 "q" 10 exKb
    { metadata := [], docs := [] } rfl rfl rfl

/-- C7 counterexample: a single DOCX file whose partitioner yields two text
elements contributes two entries to the result list, so the returned list
does not have exactly one entry per input file. -/
theorem extraction_not_one_entry_per_file :
    extractTextFromFiles [exDocxFile] = ["p1", "p2"] ∧
    ¬ (extractTextFromFiles [exDocxFile]).length = 1 :=
  ⟨rfl, by decide⟩

/-- C7 (amended): extraction outcomes are computed file by file and
concatenated, so no file's failure aborts the rest; an unsupported
extension contributes exactly one placeholder string and a failing read
exactly one inline error string; a PDF contributes one joined-text entry,
while a DOCX/PPTX contributes one entry per kept `(Text, Table)` element
(not one entry per file). -/
theorem extraction_per_file_outcomes :
    (∀ xs ys : List UploadFileM,
      extractTextFromFiles (xs ++ ys) =
        extractTextFromFiles xs ++ extractTextFromFiles ys) ∧
    (∀ (name : String) (b : FileBytes),
      ¬ fileExt name = ".pdf" → ¬ fileExt name = ".docx" → ¬ fileExt name = ".pptx" →
      extractTextFromFiles [{ filename := name, content := b }] =
        ["Unsupported file type for " ++ name ++ ". Only PDF, DOCX, and PPTX are supported."]) ∧
    (∀ (name e : String),
      (fileExt name = ".pdf" ∨ fileExt name = ".docx" ∨ fileExt name = ".pptx") →
      extractTextFromFiles [{ filename := name, content := .unreadable e }] =
        ["Error processing file " ++ name ++ ": " ++ e]) ∧
    (∀ (name : String) (pages : List String), fileExt name = ".pdf" →
      extractTextFromFiles [{ filename := name, content := .pdfBytes pages }] =
        [String.intercalate "\n" pages]) ∧
    (∀ (name : String) (els : List DocElement), fileExt name = ".docx" →
      extractTextFromFiles [{ filename := name, content := .docxBytes els }] =
        (els.filter (fun e => e.isTextOrTable)).map (fun e => e.text)) ∧
    (∀ (name : String) (els : List DocElement), fileExt name = ".pptx" →
      extractTextFromFiles [{ filename := name, content := .pptxBytes els }] =
        (els.filter (fun e => e.isTextOrTable)).map (fun e => e.text)) := by
  refine ⟨?_, ?_, ?_, ?_, ?_, ?_⟩
  · intro xs ys
    induction xs with
    | nil => simp [extractTextFromFiles]
    | cons x xs ih =>
        simp only [List.cons_append, extractTextFromFiles, List.append_eq]
        rw [ih, List.append_assoc]
  · intro name b h1 h2 h3
    simp only [extractTextFromFiles, List.append_nil]
    rw [if_pos ⟨h1, h2, h3⟩]
  · intro name e hsupp
    simp only [extractTextFromFiles, List.append_nil]
    rw [if_neg (by tauto)]
  · intro name pages hpdf
    simp only [extractTextFromFiles, List.append_nil]
    rw [if_neg (by tauto)]
    simp only [hpdf, if_true]
  · intro name els hdocx
    simp only [extractTextFromFiles, List.append_nil]
    rw [if_neg (by tauto)]
    have hnp : ¬ fileExt name = ".pdf" := by
      rw [hdocx]
      decide
    simp only [hdocx, if_true]
  · intro name els hpptx
    simp only [extractTextFromFiles, List.append_nil]
    rw [if_neg (by tauto)]
    simp only [hpptx, if_true]

/-- Witness for C7 at a concrete PDF file. -/
theorem extraction_per_file_outcomes_witness :
    extractTextFromFiles [{ filename := "b.pdf", content := .pdfBytes ["x", "y"] }] =
      ["x\ny"] := by
  have h := extraction_per_file_outcomes.2.2.2.1 "b.pdf" ["x", "y"] rfl
  simpa using h

/-- C8 counterexample: a `None` metadata value is passed through unchanged
by the coercion, not stringified. -/
theorem add_documents_none_metadata_not_stringified :
    docMetaAt exStAfterNone "c" { contentId := 1, nonce := 0 } =
      some [("k", MetaValue.pynone)] ∧
    ¬ MetaValue.pynone = MetaValue.str "None" :=
  ⟨rfl, by decide⟩

/-- C8 (amended): `add_documents` rejects empty arrays and unequal-length
arrays with an error; on success it returns exactly the given ids; during
metadata coercion every non-primitive value is stringified except `None`,
which is passed through unchanged. -/
theorem add_documents_contract :
    (∀ (st : ChromaState) (name : String) (docs : List String)
        (metas : List (List (String × MetaValue))) (ids : List ChromaDocId),
      (docs = [] ∨ metas = [] ∨ ids = []) →
      isErr (st.addDocuments name docs metas ids) = true) ∧
    (∀ (st : ChromaState) (name : String) (docs : List String)
        (metas : List (List (String × MetaValue))) (ids : List ChromaDocId),
      ¬ (docs.length = ids.length ∧ metas.length = ids.length) →
      isErr (st.addDocuments name docs metas ids) = true) ∧
    (∀ (st : ChromaState) (name : String) (docs : List String)
        (metas : List (List (String × MetaValue))) (ids : List ChromaDocId)
        (st2 : ChromaState) (ret : List ChromaDocId),
      st.addDocuments name docs metas ids = .ok (st2, ret) → ret = ids) ∧
    (∀ s : String, coerceValue (MetaValue.obj s) = MetaValue.str s) ∧
    coerceValue MetaValue.pynone = MetaValue.pynone := by
  refine ⟨?_, ?_, ?_, fun s => rfl, rfl⟩
  · intro st name docs metas ids h
    rcases h with h | h | h <;> subst h <;> simp [ChromaState.addDocuments, isErr]
  · intro st name docs metas ids h
    unfold ChromaState.addDocuments
    by_cases he : (docs.isEmpty || metas.isEmpty || ids.isEmpty) = true
    · rw [if_pos he]
      rfl
    · rw [if_neg he]
      cases hg : st.getCollection name with
      | error e => rfl
      | ok col => simp [isErr, h]
  · intro st name docs metas ids st2 ret h
    simp only [ChromaState.addDocuments] at h
    split at h
    · simp at h
    · split at h
      · simp at h
      · split at h
        · rw [Except.ok.injEq, Prod.mk.injEq] at h
          exact h.2.symm
        · simp at h

/-- Witness for C8: the empty-array rejection at a concrete state. -/
theorem add_documents_contract_witness :
    isErr (ChromaState.addDocuments exSt "c" [] [] []) = true :=
  add_documents_contract.1 exSt "c" [] [] [] (Or.inl rfl)

/-- C10: when the content record and its knowledge base exist but the
requested provider is absent or inactive, or the requested model is absent
for that provider, `process_content` raises before any state change: the
whole world (in particular the record's status, summary and error fields)
is untouched and no status was committed. -/
theorem process_content_validation_atomic
    (llm : LlmRequest → Except String String) (fs : String → Option FileBytes)
    (now : String) (w : World) (cid pid mid : Nat) (cs : Option String) (mt : Nat)
    (c : ContentRecord) (kb : KnowledgeBaseRow)
    (hc : findContent w.db cid = some c)
    (hkb : findKb w.db c.knowledge_base_id = some kb)
    (hbad : findProvider w.db pid = none ∨
      (∃ p, findProvider w.db pid = some p ∧
        (p.is_active = false ∨ findModel w.db mid pid = none))) :
    (processContent llm fs now w cid pid mid cs mt).world = w ∧
    isErr (processContent llm fs now w cid pid mid cs mt).result = true ∧
    (processContent llm fs now w cid pid mid cs mt).statusTrace = [] := by
  simp only [processContent, hc, hkb]
  rcases hbad with hnone | ⟨p, hp, hbad2⟩
  · simp only [hnone]
    exact ⟨trivial, rfl, trivial⟩
  · simp only [hp]
    rcases hbad2 with hinact | hmodel
    · simp only [hinact, Bool.not_false, if_true]
      exact ⟨trivial, rfl, trivial⟩
    · cases hact : p.is_active
      · simp only [Bool.not_false, if_true]
        exact ⟨trivial, rfl, trivial⟩
      · simp only [Bool.not_true, Bool.false_eq_true, if_false, hmodel]
        exact ⟨trivial, rfl, trivial⟩

/-- Witness for C10: an inactive provider at a concrete world. -/
theorem process_content_validation_atomic_witness :
    (processContent exLlmGood exFs "T" exWorldInactive 7 1 1 none 2000).world =
      exWorldInactive ∧
    isErr (processContent exLlmGood exFs "T" exWorldInactive 7 1 1 none 2000).result = true ∧
    (processContent exLlmGood exFs "T" exWorldInactive 7 1 1 none 2000).statusTrace = [] :=
  process_content_validation_atomic exLlmGood exFs "T" exWorldInactive 7 1 1 none 2000
    exFailedRecord exKb rfl rfl
    (Or.inr ⟨{ exProvider with is_active := false }, rfl, Or.inl rfl⟩)

/-- C2 counterexample: processing a record whose generated summary comes
back empty completes the record but stores the RAW extracted text as the
vector document, so the vector entry does not resolve to the record's
summary. -/
theorem indexed_text_falls_back_to_raw_text :
    exRunEmptySummary.result = .ok true ∧
    (findContent exRunEmptySummary.world.db 7).map (fun c => c.processing_status) =
      some "completed" ∧
    (findContent exRunEmptySummary.world.db 7).map (fun c => c.summary) = some (some "") ∧
    (findContent exRunEmptySummary.world.db 7).map (fun c => c.chroma_document_id) =
      some (some { contentId := 7, nonce := 5 }) ∧
    docTextAt exRunEmptySummary.world.chroma "kbcoll" { contentId := 7, nonce := 5 } =
      some "RAW" :=
  ⟨rfl, rfl, rfl, rfl, rfl⟩

/-- C2 (amended): whenever `_add_to_chroma` succeeds on a record whose
summary is non-empty, the stored vector document resolves to exactly that
summary text under the fresh id it mints; the raw-extracted-text fallback
only engages when the summary is empty or null (see the counterexample). -/
theorem indexed_text_is_summary_when_nonempty
    (now : String) (w : World) (c : ContentRecord) (name s : String)
    (col : ChromaCollection)
    (hname : isBlankName name = false)
    (hcol : lookupColl name w.chroma.collections = some col)
    (hbound : nonceBound w = true)
    (hsum : c.summary = some s) (hs : ¬ s = "")
    {w2 : World} {did : ChromaDocId}
    (hadd : addToChroma now w c name = .ok (w2, did)) :
    did = { contentId := c.id, nonce := w.nextNonce } ∧
    docTextAt w2.chroma name did = some s := by
  rw [addToChroma_ok now w c name s col hname hcol hsum hs] at hadd
  rw [Except.ok.injEq, Prod.mk.injEq] at hadd
  obtain ⟨hw, hdid⟩ := hadd
  subst hw
  subst hdid
  refine ⟨rfl, ?_⟩
  have hfresh : lookupDoc { contentId := c.id, nonce := w.nextNonce } col.docs = none :=
    lookupDoc_none_of_bound (bound_of_lookupColl hbound hcol)
  simp only [docTextAt, ChromaState.getDocumentById,
    getCollection_of_lookup hname (lookupColl_setColl_self hcol),
    lookupDoc_append_right hfresh]
  simp [lookupDoc]

/-- Witness for C2: the re-added summary resolves in the concrete state. -/
theorem indexed_text_is_summary_when_nonempty_witness :
    docTextAt exAddWorld.chroma "kbcoll" { contentId := 7, nonce := 5 } = some "OLD" :=
  (indexed_text_is_summary_when_nonempty "T" exWorldDone exDoneRecord "kbcoll" "OLD"
    { metadata := [],
      docs := [({ contentId := 7, nonce := 2 }, { text := "OLD", metadata := [] })] }
    rfl rfl rfl rfl (by decide) rfl).2

lemma deleteDocument_ok {st : ChromaState} {name : String} {col : ChromaCollection}
    (i : ChromaDocId) (hname : isBlankName name = false)
    (hcol : lookupColl name st.collections = some col) :
    st.deleteDocument name i = .ok
      ({ collections := setColl name
          ({ col with docs := col.docs.filter (fun p => p.1 ≠ i) }) st.collections }, true) := by
  unfold ChromaState.deleteDocument
  rw [getCollection_of_lookup hname hcol]

/-- C5: re-summarizing a completed record whose vector entry exists deletes
the old vector document and re-adds the new summary under a fresh id
distinct from the old one; afterwards the old id no longer resolves while
the new id resolves to the new summary. -/
theorem resummarize_fresh_id_old_unresolvable
    (now : String) (w : World) (cid : Nat) (s : String)
    (c : ContentRecord) (kb : KnowledgeBaseRow) (col : ChromaCollection)
    (oldId : ChromaDocId) (d : ChromaDoc)
    (hc : findContent w.db cid = some c)
    (hold : c.chroma_document_id = some oldId)
    (hkb : findKb w.db c.knowledge_base_id = some kb)
    (hname : isBlankName kb.chroma_collection_name = false)
    (hcol : lookupColl kb.chroma_collection_name w.chroma.collections = some col)
    (hentry : lookupDoc oldId col.docs = some d)
    (hbound : nonceBound w = true)
    (hs : ¬ s = "") :
    (updateContentSummary now w cid s).2 = .ok true ∧
    (findContent (updateContentSummary now w cid s).1.db cid).map
        (fun x => x.chroma_document_id) =
      some (some { contentId := c.id, nonce := w.nextNonce }) ∧
    ¬ oldId = { contentId := c.id, nonce := w.nextNonce } ∧
    docTextAt (updateContentSummary now w cid s).1.chroma
      kb.chroma_collection_name oldId = none ∧
    docTextAt (updateContentSummary now w cid s).1.chroma
      kb.chroma_collection_name { contentId := c.id, nonce := w.nextNonce } = some s := by
  have hboundcol : ∀ q ∈ col.docs, q.1.nonce < w.nextNonce :=
    bound_of_lookupColl hbound hcol
  have hne : ¬ oldId = { contentId := c.id, nonce := w.nextNonce } := by
    intro he
    have := hboundcol (oldId, d) (lookupDoc_mem hentry)
    rw [he] at this
    exact lt_irrefl w.nextNonce this
  set colF : ChromaCollection :=
    { col with docs := col.docs.filter (fun p => p.1 ≠ oldId) } with hcolFdef
  set chroma1 : ChromaState :=
    { collections := setColl kb.chroma_collection_name colF w.chroma.collections }
    with hchroma1def
  set w1 : World := { w with chroma := chroma1 } with hw1def
  have hdel : w.chroma.deleteDocument kb.chroma_collection_name oldId =
      .ok (chroma1, true) :=
    deleteDocument_ok oldId hname hcol
  have hcol1 : lookupColl kb.chroma_collection_name chroma1.collections = some colF :=
    lookupColl_setColl_self hcol
  have hadd := addToChroma_ok now w1 ({ c with summary := some s, updated_at := now })
    kb.chroma_collection_name s colF hname hcol1 rfl hs
  rw [hold] at hadd
  simp only [updateContentSummary, hc, hkb, hold, hdel, hadd]
  have hfresh : lookupDoc oldId colF.docs = none := lookupDoc_filter_self oldId col.docs
  have hfilterbound : ∀ q ∈ colF.docs, q.1.nonce < w.nextNonce :=
    fun q hq => hboundcol q (List.mem_of_mem_filter hq)
  have hfresh2 : lookupDoc { contentId := c.id, nonce := w.nextNonce } colF.docs = none :=
    lookupDoc_none_of_bound hfilterbound
  refine ⟨trivial, ?_, hne, ?_, ?_⟩
  · have h2 : findContent (updateContent w.db
        ({ c with
           summary := some s
           updated_at := now
           chroma_document_id := some { contentId := c.id, nonce := w.nextNonce } })) cid =
        some ({ c with
           summary := some s
           updated_at := now
           chroma_document_id := some { contentId := c.id, nonce := w.nextNonce } }) :=
      findContent_updateContent_self hc rfl
    rw [h2]
    rfl
  · simp only [docTextAt, ChromaState.getDocumentById,
      getCollection_of_lookup hname (lookupColl_setColl_self hcol1),
      lookupDoc_append_right hfresh]
    have hne2 : ¬ ({ contentId := c.id, nonce := w.nextNonce } : ChromaDocId) = oldId :=
      fun he => hne he.symm
    simp [lookupDoc, hne2]
  · simp only [docTextAt, ChromaState.getDocumentById,
      getCollection_of_lookup hname (lookupColl_setColl_self hcol1),
      lookupDoc_append_right hfresh2]
    simp [lookupDoc]

/-- Witness for C5 at the concrete completed record. -/
theorem resummarize_fresh_id_old_unresolvable_witness :
    (updateContentSummary "T" exWorldDone 7 "NEW").2 = .ok true ∧
    (findContent (updateContentSummary "T" exWorldDone 7 "NEW").1.db 7).map
        (fun x => x.chroma_document_id) = some (some { contentId := 7, nonce := 5 }) ∧
    ¬ ({ contentId := 7, nonce := 2 } : ChromaDocId) = { contentId := 7, nonce := 5 } ∧
    docTextAt (updateContentSummary "T" exWorldDone 7 "NEW").1.chroma "kbcoll"
      { contentId := 7, nonce := 2 } = none ∧
    docTextAt (updateContentSummary "T" exWorldDone 7 "NEW").1.chroma "kbcoll"
      { contentId := 7, nonce := 5 } = some "NEW" :=
  resummarize_fresh_id_old_unresolvable "T" exWorldDone 7 "NEW" exDoneRecord exKb
    { metadata := [],
      docs := [({ contentId := 7, nonce := 2 }, { text := "OLD", metadata := [] })] }
    { contentId := 7, nonce := 2 } { text := "OLD", metadata := [] }
    rfl rfl rfl rfl rfl rfl rfl (by decide)

/-- C4 counterexample: there is no `unified` registration path; registering
text content creates a `pending` (not `completed`) record whose supplied
text is stored as `extracted_text` (not as a summary), and nothing is
written to the vector store at registration time. -/
theorem unified_registration_counterexample :
    exTextReg.2 = .ok
      { id := 8, knowledge_base_id := 1, content_type := "text",
        original_filename := "Text Content T", extracted_text := some "X",
        processing_status := "pending", created_at := "T", updated_at := "T" } ∧
    exTextReg.1.chroma = exWorld.chroma :=
  ⟨rfl, rfl⟩

/-- C4 (amended): the nearest behaviour the code offers: a `text` record
with extracted text, processed with a non-empty caller-supplied custom
summary S, completes without invoking extraction or summarization (the
outcome is identical for any generation oracle and any file system), the
record ends `completed` with summary S, and the stored vector document
text equals S exactly. -/
theorem text_with_custom_summary_completes
    (now : String) (w : World) (cid pid mid mt : Nat) (S : String)
    (c : ContentRecord) (kb : KnowledgeBaseRow) (p : ProviderRow) (m : ModelRow)
    (col : ChromaCollection)
    (hc : findContent w.db cid = some c)
    (htype : c.content_type = "text")
    (hext : truthy c.extracted_text = true)
    (hkb : findKb w.db c.knowledge_base_id = some kb)
    (hp : findProvider w.db pid = some p) (hact : p.is_active = true)
    (hm : findModel w.db mid pid = some m)
    (hname : isBlankName kb.chroma_collection_name = false)
    (hcol : lookupColl kb.chroma_collection_name w.chroma.collections = some col)
    (hbound : nonceBound w = true)
    (hS : ¬ S = "") :
    ∀ (llm llm2 : LlmRequest → Except String String)
      (fs fs2 : String → Option FileBytes),
      processContent llm fs now w cid pid mid (some S) mt =
        processContent llm2 fs2 now w cid pid mid (some S) mt ∧
      (processContent llm fs now w cid pid mid (some S) mt).result = .ok true ∧
      (findContent (processContent llm fs now w cid pid mid (some S) mt).world.db cid).map
          (fun x => x.processing_status) = some "completed" ∧
      (findContent (processContent llm fs now w cid pid mid (some S) mt).world.db cid).map
          (fun x => x.summary) = some (some S) ∧
      docTextAt (processContent llm fs now w cid pid mid (some S) mt).world.chroma
        kb.chroma_collection_name { contentId := c.id, nonce := w.nextNonce } = some S := by
  intro llm llm2 fs fs2
  have hadd := addToChroma_ok now
    ({ w with db := updateContent w.db ({ c with processing_status := "processing" }) })
    ({ c with processing_status := "processing", summary := some S })
    kb.chroma_collection_name S col hname hcol rfl hS
  rw [htype] at hadd
  have h1 : findContent (updateContent w.db ({ c with processing_status := "processing" }))
      cid = some ({ c with processing_status := "processing" }) :=
    findContent_updateContent_self hc rfl
  rw [htype] at h1
  have hfresh : lookupDoc { contentId := c.id, nonce := w.nextNonce } col.docs = none :=
    lookupDoc_none_of_bound (bound_of_lookupColl hbound hcol)
  have hd1 : ¬ ("text" = "document") := by decide
  have hd2 : ¬ ("text" = "image") := by decide
  have h4 : findContent
      (updateContent (updateContent w.db ({ c with processing_status := "processing" }))
        ({ c with
           processing_status := "completed"
           summary := some S
           chroma_document_id := some { contentId := c.id, nonce := w.nextNonce }
           updated_at := now })) cid =
      some ({ c with
           processing_status := "completed"
           summary := some S
           chroma_document_id := some { contentId := c.id, nonce := w.nextNonce }
           updated_at := now }) :=
    findContent_updateContent_self (findContent_updateContent_self hc rfl) rfl
  rw [htype] at h4
  refine ⟨?_, ?_, ?_, ?_, ?_⟩
  · simp only [processContent, extractStage, hc, hkb, hp, hact, hm, htype, hext, truthy_some hS, hadd,
      hd1, hd2, Bool.not_true, Bool.false_eq_true, and_false, false_and, and_true, true_and,
      or_false, false_or, or_self, eq_self_iff_true, if_true, if_false, Option.getD_some]
  · simp only [processContent, extractStage, hc, hkb, hp, hact, hm, htype, hext, truthy_some hS, hadd,
      hd1, hd2, Bool.not_true, Bool.false_eq_true, and_false, false_and, and_true, true_and,
      or_false, false_or, or_self, eq_self_iff_true, if_true, if_false, Option.getD_some]
  · simp only [processContent, extractStage, hc, hkb, hp, hact, hm, htype, hext, truthy_some hS, hadd,
      hd1, hd2, Bool.not_true, Bool.false_eq_true, and_false, false_and, and_true, true_and,
      or_false, false_or, or_self, eq_self_iff_true, if_true, if_false, Option.getD_some]
    rw [h4]
    rfl
  · simp only [processContent, extractStage, hc, hkb, hp, hact, hm, htype, hext, truthy_some hS, hadd,
      hd1, hd2, Bool.not_true, Bool.false_eq_true, and_false, false_and, and_true, true_and,
      or_false, false_or, or_self, eq_self_iff_true, if_true, if_false, Option.getD_some]
    rw [h4]
    rfl
  · simp only [processContent, extractStage, hc, hkb, hp, hact, hm, htype, hext, truthy_some hS, hadd,
      hd1, hd2, Bool.not_true, Bool.false_eq_true, and_false, false_and, and_true, true_and,
      or_false, false_or, or_self, eq_self_iff_true, if_true, if_false, Option.getD_some]
    simp only [docTextAt, ChromaState.getDocumentById,
      getCollection_of_lookup hname (lookupColl_setColl_self hcol),
      lookupDoc_append_right hfresh]
    simp [lookupDoc]

/-- Witness for C4 at the concrete text record with a custom summary. -/
theorem text_with_custom_summary_completes_witness :
    (processContent exLlmFail exFs "T" exWorld 7 1 1 (some "CUSTOM") 2000).result =
      .ok true ∧
    docTextAt (processContent exLlmFail exFs "T" exWorld 7 1 1
        (some "CUSTOM") 2000).world.chroma
      "kbcoll" { contentId := 7, nonce := 5 } = some "CUSTOM" := by
  have h := text_with_custom_summary_completes "T" exWorld 7 1 1 2000 "CUSTOM"
    exFailedRecord exKb exProvider exModel { metadata := [], docs := [] }
    rfl rfl rfl rfl rfl rfl rfl rfl rfl rfl (by decide) exLlmFail exLlmGood exFs exFs
  exact ⟨h.2.1, h.2.2.2.2⟩

/-- C6: any exception raised inside `process_content`'s inner try —
during extraction-dependent summarization, the text-record configuration
check, or vector indexing — marks the record `failed`, persists the
exception message on it, re-raises the exception (wrapped) to the caller,
and keeps partial work on the record rather than rolling it back: a `text`
record keeps its pre-existing extracted text, a `document` record keeps the
text extracted earlier in the same call, and an indexing failure keeps the
summary determined just before indexing. -/
theorem process_content_failure_persists_and_reraises
    (llm : LlmRequest → Except String String) (fs : String → Option FileBytes)
    (now : String) (w : World) (cid pid mid : Nat) (cs : Option String) (mt : Nat)
    (msg : String) (c : ContentRecord) (kb : KnowledgeBaseRow) (p : ProviderRow)
    (m : ModelRow)
    (hc : findContent w.db cid = some c)
    (hkb : findKb w.db c.knowledge_base_id = some kb)
    (hp : findProvider w.db pid = some p) (hact : p.is_active = true)
    (hm : findModel w.db mid pid = some m) :
    (truthy cs = false → (∀ req, llm req = .error msg) →
      c.content_type = "text" → truthy c.extracted_text = true →
      (processContent llm fs now w cid pid mid cs mt).result =
        .error ("Failed to process content: " ++ ("Failed to generate summary: " ++ msg)) ∧
      findContent (processContent llm fs now w cid pid mid cs mt).world.db cid =
        some ({ c with
          processing_status := "failed"
          processing_error := some ("Failed to generate summary: " ++ msg) }) ∧
      (processContent llm fs now w cid pid mid cs mt).statusTrace =
        ["processing", "failed"]) ∧
    (truthy cs = false → (∀ req, llm req = .error msg) →
      c.content_type = "document" → truthy c.extracted_text = false →
      ¬ extractTextFromFileKB fs c = "" →
      (processContent llm fs now w cid pid mid cs mt).result =
        .error ("Failed to process content: " ++ ("Failed to generate summary: " ++ msg)) ∧
      findContent (processContent llm fs now w cid pid mid cs mt).world.db cid =
        some ({ c with
          extracted_text :=
            some (extractTextFromFileKB fs ({ c with processing_status := "processing" }))
          processing_status := "failed"
          processing_error := some ("Failed to generate summary: " ++ msg) }) ∧
      (processContent llm fs now w cid pid mid cs mt).statusTrace =
        ["processing", "failed"]) ∧
    (c.content_type = "text" → truthy c.extracted_text = false →
      (processContent llm fs now w cid pid mid cs mt).result =
        .error ("Failed to process content: " ++
          "Text content must have extracted_text field set") ∧
      findContent (processContent llm fs now w cid pid mid cs mt).world.db cid =
        some ({ c with
          processing_status := "failed"
          processing_error := some "Text content must have extracted_text field set" }) ∧
      (processContent llm fs now w cid pid mid cs mt).statusTrace =
        ["processing", "failed"]) ∧
    (∀ (S em : String), cs = some S → ¬ S = "" →
      c.content_type = "text" → truthy c.extracted_text = true →
      addToChroma now
        ({ w with db := updateContent w.db ({ c with processing_status := "processing" }) })
        ({ c with processing_status := "processing", summary := some S })
        kb.chroma_collection_name = .error em →
      (processContent llm fs now w cid pid mid cs mt).result =
        .error ("Failed to process content: " ++ ("Failed to add to ChromaDB: " ++ em)) ∧
      findContent (processContent llm fs now w cid pid mid cs mt).world.db cid =
        some ({ c with
          summary := some S
          processing_status := "failed"
          processing_error := some ("Failed to add to ChromaDB: " ++ em) }) ∧
      (processContent llm fs now w cid pid mid cs mt).statusTrace =
        ["processing", "failed"]) := by
  refine ⟨?_, ?_, ?_, ?_⟩
  · intro hcs hllm htype hext
    have hd1 : ¬ ("text" = "document") := by decide
    have hd2 : ¬ ("text" = "image") := by decide
    have hfail : findContent
        (updateContent (updateContent w.db ({ c with processing_status := "processing" }))
          ({ c with
             processing_status := "failed"
             processing_error := some ("Failed to generate summary: " ++ msg) })) cid =
        some ({ c with
             processing_status := "failed"
             processing_error := some ("Failed to generate summary: " ++ msg) }) :=
      findContent_updateContent_self (findContent_updateContent_self hc rfl) rfl
    rw [htype] at hfail
    refine ⟨?_, ?_, ?_⟩ <;>
      · simp only [processContent, extractStage, hc, hkb, hp, hact, hm, htype, hext, hcs,
          hllm, generateSummary, processInnerFail, hd1, hd2, Bool.not_true, Bool.not_false,
          Bool.false_eq_true, and_false, false_and, and_true, true_and, or_false,
          false_or, or_self, eq_self_iff_true, if_true, if_false, Option.getD_some]
        try rw [hfail]
  · intro hcs hllm htype hext hexval
    have hd2 : ¬ ("document" = "image") := by decide
    have hd3 : ¬ ("document" = "text") := by decide
    have hex2 : truthy (some (extractTextFromFileKB fs
        ({ c with processing_status := "processing" }))) = true :=
      truthy_some hexval
    rw [htype] at hex2
    have hfail : findContent
        (updateContent (updateContent w.db ({ c with processing_status := "processing" }))
          ({ c with
             extracted_text := some (extractTextFromFileKB fs
               ({ c with processing_status := "processing" }))
             processing_status := "failed"
             processing_error := some ("Failed to generate summary: " ++ msg) })) cid =
        some ({ c with
             extracted_text := some (extractTextFromFileKB fs
               ({ c with processing_status := "processing" }))
             processing_status := "failed"
             processing_error := some ("Failed to generate summary: " ++ msg) }) :=
      findContent_updateContent_self (findContent_updateContent_self hc rfl) rfl
    rw [htype] at hfail
    refine ⟨?_, ?_, ?_⟩ <;>
      · simp only [processContent, extractStage, hc, hkb, hp, hact, hm, htype, hext, hcs,
          hllm, generateSummary, processInnerFail, hex2, hd2, hd3, Bool.not_true,
          Bool.not_false, Bool.false_eq_true, and_false, false_and, and_true, true_and,
          or_false, false_or, or_self, eq_self_iff_true, if_true, if_false,
          Option.getD_some]
        try rw [hfail]
  · intro htype hextf
    have hd1 : ¬ ("text" = "document") := by decide
    have hd2 : ¬ ("text" = "image") := by decide
    have hfail : findContent
        (updateContent (updateContent w.db ({ c with processing_status := "processing" }))
          ({ c with
             processing_status := "failed"
             processing_error := some "Text content must have extracted_text field set" }))
          cid =
        some ({ c with
             processing_status := "failed"
             processing_error := some "Text content must have extracted_text field set" }) :=
      findContent_updateContent_self (findContent_updateContent_self hc rfl) rfl
    rw [htype] at hfail
    refine ⟨?_, ?_, ?_⟩ <;>
      · simp only [processContent, extractStage, hc, hkb, hp, hact, hm, htype, hextf,
          processInnerFail, hd1, hd2, Bool.not_true, Bool.not_false, Bool.false_eq_true,
          and_false, false_and, and_true, true_and, or_false, false_or, or_self,
          eq_self_iff_true, if_true, if_false, Option.getD_some]
        try rw [hfail]
  · intro S em hcsS hSne htype hext haddfail
    subst hcsS
    have hd1 : ¬ ("text" = "document") := by decide
    have hd2 : ¬ ("text" = "image") := by decide
    rw [htype] at haddfail
    have hfail : findContent
        (updateContent (updateContent w.db ({ c with processing_status := "processing" }))
          ({ c with
             summary := some S
             processing_status := "failed"
             processing_error := some ("Failed to add to ChromaDB: " ++ em) })) cid =
        some ({ c with
             summary := some S
             processing_status := "failed"
             processing_error := some ("Failed to add to ChromaDB: " ++ em) }) :=
      findContent_updateContent_self (findContent_updateContent_self hc rfl) rfl
    rw [htype] at hfail
    refine ⟨?_, ?_, ?_⟩ <;>
      · simp only [processContent, extractStage, hc, hkb, hp, hact, hm, htype, hext,
          truthy_some hSne, haddfail, processInnerFail, hd1, hd2, Bool.not_true,
          Bool.not_false, Bool.false_eq_true, and_false, false_and, and_true, true_and,
          or_false, false_or, or_self, eq_self_iff_true, if_true, if_false,
          Option.getD_some]
        try rw [hfail]

/-- Witness for C6: a failing generation oracle at the concrete text
record, and a failing vector-store add (blank collection name) with a
caller-supplied summary that is kept on the failed record. -/
theorem process_content_failure_persists_and_reraises_witness :
    (processContent exLlmFail exFs "T" exWorld 7 1 1 none 2000).result =
      .error ("Failed to process content: " ++ ("Failed to generate summary: " ++ "boom")) ∧
    findContent (processContent exLlmFail exFs "T" exWorld 7 1 1 none 2000).world.db 7 =
      some ({ exFailedRecord with
        processing_status := "failed"
        processing_error := some ("Failed to generate summary: " ++ "boom") }) ∧
    (processContent exLlmFail exFs "T" exWorld 7 1 1 none 2000).statusTrace =
      ["processing", "failed"] ∧
    findContent (processContent exLlmGood exFs "T" exWorldBlank 7 1 1
        (some "CUSTOM") 2000).world.db 7 =
      some ({ exFailedRecord with
        summary := some "CUSTOM"
        processing_status := "failed"
        processing_error := some ("Failed to add to ChromaDB: " ++
          ("Failed to add to ChromaDB: Failed to add documents to collection '': " ++
           "Collection '' not found: Collection name cannot be empty")) }) ∧
    (processContent exLlmGood exFs "T" exWorldBlank 7 1 1
        (some "CUSTOM") 2000).statusTrace = ["processing", "failed"] := by
  have hA := (process_content_failure_persists_and_reraises exLlmFail exFs "T" exWorld
    7 1 1 none 2000 "boom" exFailedRecord exKb exProvider exModel
    rfl rfl rfl rfl rfl).1 rfl (fun _ => rfl) rfl rfl
  have hD := (process_content_failure_persists_and_reraises exLlmGood exFs "T"
    exWorldBlank 7 1 1 (some "CUSTOM") 2000 "unused" exFailedRecord exKbBlank
    exProvider exModel rfl rfl rfl rfl rfl).2.2.2 "CUSTOM"
    ("Failed to add to ChromaDB: Failed to add documents to collection '': " ++
     "Collection '' not found: Collection name cannot be empty")
    rfl (by decide) rfl rfl rfl
  exact ⟨hA.1, hA.2.1, hA.2.2, hD.2.1, hD.2.2⟩

lemma mkUploadRecords_pending (now : String) (kbId : Nat) :
    ∀ (files : List IncomingFile) (a b : Nat) (c : ContentRecord),
      c ∈ mkUploadRecords now kbId a b files → c.processing_status = "pending" := by
  intro files
  induction files with
  | nil => intro a b c h; simp [mkUploadRecords] at h
  | cons f rest ih =>
      intro a b c h
      simp only [mkUploadRecords, List.mem_cons] at h
      rcases h with h | h
      · rw [h]
      · exact ih (a + 1) (b + 1) c h

lemma addToChroma_db {now : String} {w : World} {c : ContentRecord} {name : String}
    {w2 : World} {did : ChromaDocId} (h : addToChroma now w c name = .ok (w2, did)) :
    w2.db = w.db := by
  simp only [addToChroma] at h
  repeat' split at h
  all_goals first
    | exact Except.noConfusion h
    | (rw [Except.ok.injEq, Prod.mk.injEq] at h
       obtain ⟨h1, h2⟩ := h
       subst h1
       rfl)

lemma mem_updateContent {db : Db} {cnew c2 : ContentRecord}
    (h : c2 ∈ (updateContent db cnew).contents) : c2 = cnew ∨ c2 ∈ db.contents := by
  unfold updateContent at h
  simp only [List.mem_map] at h
  obtain ⟨a, ha, hf⟩ := h
  by_cases hb : a.id = cnew.id
  · rw [if_pos hb] at hf
    exact Or.inl hf.symm
  · rw [if_neg hb] at hf
    exact Or.inr (hf ▸ ha)

/-- C3 counterexample: calling `process_content` on a record whose status is
`failed` transitions it to `processing` and then `completed` — the
transition `failed → processing` (reprocessing) is reachable, which the
claimed transition set excludes. -/
theorem failed_record_reprocessed :
    (findContent exWorld.db 7).map (fun c => c.processing_status) = some "failed" ∧
    exRunGood.statusTrace = ["processing", "completed"] ∧
    (findContent exRunGood.world.db 7).map (fun c => c.processing_status) =
      some "completed" :=
  ⟨rfl, rfl, rfl⟩

/-- C3 (amended): registration (file upload or text submission) always
creates records in `pending`; `process_content` commits `processing` and
then exactly one of `completed`/`failed` regardless of the record's prior
status (so `failed → processing` and `completed → processing` are also
reachable by reprocessing), or commits nothing when validation fails; and
re-summarize (`update_content_summary`) never changes any record's
`processing_status`. -/
theorem status_machine_transitions :
    (∀ (now : String) (w : World) (kbId : Nat) (text : String)
        (title description : Option String) (w2 : World) (c : ContentRecord),
      addTextContent now w kbId text title description = (w2, .ok c) →
      c.processing_status = "pending") ∧
    (∀ (now : String) (w : World) (kbId : Nat) (files : List IncomingFile)
        (w2 : World) (cs : List ContentRecord),
      uploadFiles now w kbId files = (w2, .ok cs) →
      ∀ c ∈ cs, c.processing_status = "pending") ∧
    (∀ (llm : LlmRequest → Except String String) (fs : String → Option FileBytes)
        (now : String) (w : World) (cid pid mid : Nat) (cs : Option String) (mt : Nat),
      (processContent llm fs now w cid pid mid cs mt).statusTrace = [] ∨
      (processContent llm fs now w cid pid mid cs mt).statusTrace =
        ["processing", "completed"] ∨
      (processContent llm fs now w cid pid mid cs mt).statusTrace =
        ["processing", "failed"]) ∧
    (∀ (now : String) (w : World) (cid : Nat) (s : String),
      ∀ c2 ∈ (updateContentSummary now w cid s).1.db.contents,
        ∃ c0 ∈ w.db.contents,
          c0.id = c2.id ∧ c0.processing_status = c2.processing_status) := by
  refine ⟨?_, ?_, ?_, ?_⟩
  · intro now w kbId text title description w2 c h
    unfold addTextContent at h
    split at h
    · simp at h
    · rw [Prod.mk.injEq, Except.ok.injEq] at h
      rw [← h.2]
  · intro now w kbId files w2 cs h c hmem
    unfold uploadFiles at h
    split at h
    · simp at h
    · rw [Prod.mk.injEq, Except.ok.injEq] at h
      rw [← h.2] at hmem
      exact mkUploadRecords_pending now kbId files (nextContentId w.db) w.nextNonce c hmem
  · intro llm fs now w cid pid mid cs mt
    unfold processContent
    repeat' split
    all_goals try simp [processInnerFail]
    all_goals repeat' split
    all_goals simp [processInnerFail]
  · intro now w cid s c2 hmem
    unfold updateContentSummary at hmem
    cases hfc : findContent w.db cid with
    | none =>
        simp only [hfc] at hmem
        exact ⟨c2, hmem, rfl, rfl⟩
    | some content =>
        simp only [hfc] at hmem
        have hcmem : content ∈ w.db.contents := List.mem_of_find?_eq_some hfc
        cases hdoc : content.chroma_document_id with
        | none =>
            simp only [hdoc] at hmem
            rcases mem_updateContent hmem with h | h
            · exact ⟨content, hcmem, by rw [h], by rw [h]⟩
            · exact ⟨c2, h, rfl, rfl⟩
        | some oldId =>
            simp only [hdoc] at hmem
            cases hkb2 : findKb w.db content.knowledge_base_id with
            | none =>
                simp only [hkb2] at hmem
                exact ⟨c2, hmem, rfl, rfl⟩
            | some kb =>
                simp only [hkb2] at hmem
                cases hdel : w.chroma.deleteDocument kb.chroma_collection_name oldId with
                | error e =>
                    simp only [hdel] at hmem
                    exact ⟨c2, hmem, rfl, rfl⟩
                | ok pr =>
                    obtain ⟨chroma1, bres⟩ := pr
                    simp only [hdel] at hmem
                    cases hadd2 : addToChroma now { w with chroma := chroma1 }
                        ({ content with
                           summary := some s
                           updated_at := now
                           chroma_document_id := some oldId })
                        kb.chroma_collection_name with
                    | error e =>
                        simp only [hadd2] at hmem
                        exact ⟨c2, hmem, rfl, rfl⟩
                    | ok pr2 =>
                        obtain ⟨w2, newId⟩ := pr2
                        simp only [hadd2] at hmem
                        have hdb := addToChroma_db hadd2
                        rw [hdb] at hmem
                        rcases mem_updateContent hmem with h | h
                        · exact ⟨content, hcmem, by rw [h], by rw [h]⟩
                        · exact ⟨c2, h, rfl, rfl⟩

/-- Witness for C3: the concrete registered text record starts `pending`. -/
theorem status_machine_transitions_witness :
    ({ id := 8, knowledge_base_id := 1, content_type := "text",
       original_filename := "Text Content T", extracted_text := some "X",
       processing_status := "pending", created_at := "T", updated_at := "T" } :
        ContentRecord).processing_status = "pending" :=
  status_machine_transitions.1 "T" exWorld 1 "X" none none exTextReg.1
    { id := 8, knowledge_base_id := 1, content_type := "text",
      original_filename := "Text Content T", extracted_text := some "X",
      processing_status := "pending", created_at := "T", updated_at := "T" } rfl
